import Mathlib

/-!
Shallow embedding of the custodial vault programs of this repository
(pinocchio and anchor variants of the deposit/withdraw/close examples).
Byte arrays are modelled as `List Nat` (each entry one byte), u64 values as
`Nat` with explicit checked arithmetic against `2 ^ 64`, and the external
`find_program_address` primitive as an abstract function parameter.
External calls (CPIs) are modelled either by an explicit handler parameter
(when the call may re-enter the program) or by an outcome parameter plus a
trace of performed calls.
-/

namespace SolVault

/-- Byte strings: each element is one byte value. -/
abbrev Bytes := List Nat

/-- `u64::MAX + 1`: the modulus of unsigned 64-bit arithmetic. -/
def U64LIMIT : Nat := 2 ^ 64

/-- Rust `u64::checked_add`. -/
def checked_add (a b : Nat) : Option Nat :=
  if a + b < U64LIMIT then some (a + b) else none

/-- Rust `u64::checked_sub`. -/
def checked_sub (a b : Nat) : Option Nat :=
  if b ≤ a then some (a - b) else none

/-- Rust `u64::to_le_bytes`. -/
def u64_to_le_bytes (n : Nat) : Bytes :=
  [n % 256, n / 256 % 256, n / 256 ^ 2 % 256, n / 256 ^ 3 % 256,
   n / 256 ^ 4 % 256, n / 256 ^ 5 % 256, n / 256 ^ 6 % 256, n / 256 ^ 7 % 256]

/-- Rust `u64::from_le_bytes` on a little-endian byte list. -/
def u64_from_le_bytes (bs : Bytes) : Nat :=
  bs.foldr (fun b acc => b + 256 * acc) 0

/-- Rust slice `get(start..stop)`: `none` when the range is out of bounds. -/
def sliceGet (l : Bytes) (start stop : Nat) : Option Bytes :=
  if start ≤ stop ∧ stop ≤ l.length then some ((l.drop start).take (stop - start))
  else none

/-- Overwrite `src.length` bytes of `l` starting at `start`
(Rust `copy_from_slice` on `get_mut(start..start+src.length)`). -/
def writeRange (l : Bytes) (start : Nat) (src : Bytes) : Bytes :=
  l.take start ++ src ++ l.drop (start + src.length)

/-- Error results of the programs.  `panicked` marks a Rust panic
(out-of-bounds slice index or `unwrap` on `None`). -/
inductive Err
  | invalidInstructionData
  | notEnoughAccountKeys
  | missingRequiredSignature
  | invalidSeeds
  | invalidAccountData
  | illegalOwner
  | insufficientFunds
  | arithmeticOverflow
  | incorrectProgramId
  | reentrancyBlocked
  | custom (n : Nat)
  | panicked
  deriving DecidableEq, Repr

/-- The runtime-supplied view of one account. -/
structure AccountView where
  address : Bytes
  is_signer : Bool
  is_writable : Bool
  data : Bytes
  lamports : Nat
  owner_program : Bytes
  deriving DecidableEq, Repr

/-- The seed literal `b"vault"`. -/
def vaultSeed : Bytes := [118, 97, 117, 108, 116]

/-- Abstract `Pubkey::find_program_address`: from seed list and program id
to the derived address and bump byte.  The hash itself is an external
primitive, so it is a parameter of every embedded operation. -/
abbrev Fpa := List Bytes → Bytes → Bytes × Nat

namespace Reentrancy

/-! Embedding of `docs/examples/04-reentrancy-risk/pinocchio/secure/src/lib.rs`.
The withdraw instruction's external transfer is modelled by a `handler`
parameter receiving the vault data at the moment of the call (the state a
re-entrant invocation would observe) and returning the call's result
together with the vault data after the call.  The deposit instruction's
external transfer cannot re-enter with changed vault state in the claims
below, so its outcome is a plain `Except Err Unit` parameter. -/

/-- `get_owner`: bytes `0..32` of the vault data. -/
def get_owner (vault_data : Bytes) : Except Err Bytes :=
  match sliceGet vault_data 0 32 with
  | some s => .ok s
  | none => .error .invalidAccountData

/-- `get_balance`: little-endian u64 at bytes `32..40`. -/
def get_balance (vault_data : Bytes) : Except Err Nat :=
  match sliceGet vault_data 32 40 with
  | some s => .ok (u64_from_le_bytes s)
  | none => .error .invalidAccountData

/-- `set_balance`: write the little-endian u64 at bytes `32..40`. -/
def set_balance (vault_data : Bytes) (balance : Nat) : Except Err Bytes :=
  if 40 ≤ vault_data.length then
    .ok (writeRange vault_data 32 (u64_to_le_bytes balance))
  else .error .invalidAccountData

/-- `process_initialize`. -/
def process_initialize (fpa : Fpa) (program_id : Bytes)
    (accounts : List AccountView) (_instruction_data : Bytes) :
    Except Err Unit × List AccountView :=
  match accounts with
  | user :: vault :: rest =>
    if !user.is_signer then (.error .missingRequiredSignature, user :: vault :: rest)
    else
      let pb := fpa [vaultSeed, user.address] program_id
      if pb.1 ≠ vault.address then (.error .invalidSeeds, user :: vault :: rest)
      else if vault.data.length < 40 then (.error .invalidAccountData, user :: vault :: rest)
      else
        let d1 := writeRange vault.data 0 user.address
        let d2 := writeRange d1 32 (u64_to_le_bytes 0)
        (.ok (), user :: { vault with data := d2 } :: rest)
  | _ => (.error .notEnoughAccountKeys, accounts)

/-- `process_deposit`.  Rust's `instruction_data[0..8]` panics when fewer
than 8 bytes are present, which the `none` branch of `sliceGet` records. -/
def process_deposit (fpa : Fpa) (transferResult : Except Err Unit) (program_id : Bytes)
    (accounts : List AccountView) (instruction_data : Bytes) :
    Except Err Unit × List AccountView :=
  match accounts with
  | user :: vault :: w :: rest =>
    if !user.is_signer then (.error .missingRequiredSignature, user :: vault :: w :: rest)
    else
      let pb := fpa [vaultSeed, user.address] program_id
      if pb.1 ≠ vault.address then (.error .invalidSeeds, user :: vault :: w :: rest)
      else
        match sliceGet instruction_data 0 8 with
        | none => (.error .panicked, user :: vault :: w :: rest)
        | some ab =>
          let amount := u64_from_le_bytes ab
          match get_balance vault.data with
          | .error e => (.error e, user :: vault :: w :: rest)
          | .ok old_balance =>
            match checked_add old_balance amount with
            | none => (.error .arithmeticOverflow, user :: vault :: w :: rest)
            | some new_balance =>
              match set_balance vault.data new_balance with
              | .error e => (.error e, user :: vault :: w :: rest)
              | .ok d2 =>
                match transferResult with
                | .error e => (.error e, user :: { vault with data := d2 } :: w :: rest)
                | .ok _ => (.ok (), user :: { vault with data := d2 } :: w :: rest)
  | _ => (.error .notEnoughAccountKeys, accounts)

/-- `process_withdraw`: checks, then balance decrement committed to the
vault data, then the external call (the `handler`). -/
def process_withdraw (fpa : Fpa) (handler : Bytes → Except Err Unit × Bytes)
    (program_id : Bytes) (accounts : List AccountView) (instruction_data : Bytes) :
    Except Err Unit × List AccountView :=
  match accounts with
  | user :: vault :: rest =>
    match sliceGet instruction_data 0 8 with
    | none => (.error .panicked, user :: vault :: rest)
    | some ab =>
      let amount := u64_from_le_bytes ab
      if !user.is_signer then (.error .missingRequiredSignature, user :: vault :: rest)
      else
        let pb := fpa [vaultSeed, user.address] program_id
        if pb.1 ≠ vault.address then (.error .invalidSeeds, user :: vault :: rest)
        else
          match get_owner vault.data with
          | .error e => (.error e, user :: vault :: rest)
          | .ok owner =>
            if owner ≠ user.address then (.error .illegalOwner, user :: vault :: rest)
            else
              match get_balance vault.data with
              | .error e => (.error e, user :: vault :: rest)
              | .ok balance =>
                if balance < amount then (.error .insufficientFunds, user :: vault :: rest)
                else
                  match checked_sub balance amount with
                  | none => (.error .insufficientFunds, user :: vault :: rest)
                  | some new_balance =>
                    match set_balance vault.data new_balance with
                    | .error e => (.error e, user :: vault :: rest)
                    | .ok d2 =>
                      let r := handler d2
                      match r.1 with
                      | .error e => (.error e, user :: { vault with data := r.2 } :: rest)
                      | .ok _ => (.ok (), user :: { vault with data := r.2 } :: rest)
  | _ => (.error .notEnoughAccountKeys, accounts)

/-- The simulated re-entrant external call: from inside the interaction
step of `process_withdraw` it invokes `process_withdraw` again on the same
vault account, whose data is the state `st` committed by the outer call;
`h2` is the interaction of the inner call. -/
def reentrantHandler (fpa : Fpa) (h2 : Bytes → Except Err Unit × Bytes)
    (program_id : Bytes) (user vault : AccountView) (rest : List AccountView)
    (instr2 : Bytes) (st : Bytes) : Except Err Unit × Bytes :=
  let r := process_withdraw fpa h2 program_id
    (user :: { vault with data := st } :: rest) instr2
  (r.1, match r.2 with
        | _ :: v :: _ => v.data
        | _ => st)

/-- `process_instruction`: dispatch on the first payload byte. -/
def process_instruction (fpa : Fpa) (handler : Bytes → Except Err Unit × Bytes)
    (transferResult : Except Err Unit) (program_id : Bytes)
    (accounts : List AccountView) (instruction_data : Bytes) :
    Except Err Unit × List AccountView :=
  match instruction_data with
  | [] => (.error .invalidInstructionData, accounts)
  | t :: rest =>
    if t = 0 then process_initialize fpa program_id accounts rest
    else if t = 1 then process_deposit fpa transferResult program_id accounts rest
    else if t = 2 then process_withdraw fpa handler program_id accounts rest
    else (.error .invalidInstructionData, accounts)

end Reentrancy

/-- `SYSTEM_PROGRAM_ID`: 32 zero bytes. -/
def systemProgramId : Bytes := List.replicate 32 0

namespace Closure

/-! Embedding of
`solana-security-cookbook/examples/05-unsafe-account-closure/pinocchio/secure/src/lib.rs`.
The two external calls of `process_close` (residual transfer and owner
reassignment) are modelled by outcome parameters; every performed call is
recorded, together with a snapshot of the vault data at the moment of the
call, in a trace list. -/

/-- One external call of the closure sequence, with the vault-data snapshot
at the moment the call is made. -/
inductive ClosureCall
  | transferCall (dataSnap : Bytes) (lamports : Nat)
  | assignCall (dataSnap : Bytes) (newOwner : Bytes)
  deriving DecidableEq, Repr

/-- `get_owner`: bytes `0..32` of the vault data. -/
def get_owner (vault_data : Bytes) : Except Err Bytes :=
  match sliceGet vault_data 0 32 with
  | some s => .ok s
  | none => .error .invalidAccountData

/-- `get_balance`: little-endian u64 at bytes `32..40`. -/
def get_balance (vault_data : Bytes) : Except Err Nat :=
  match sliceGet vault_data 32 40 with
  | some s => .ok (u64_from_le_bytes s)
  | none => .error .invalidAccountData

/-- `set_balance`: write the little-endian u64 at bytes `32..40`. -/
def set_balance (vault_data : Bytes) (balance : Nat) : Except Err Bytes :=
  if 40 ≤ vault_data.length then
    .ok (writeRange vault_data 32 (u64_to_le_bytes balance))
  else .error .invalidAccountData

/-- `process_initialize`. -/
def process_initialize (fpa : Fpa) (program_id : Bytes)
    (accounts : List AccountView) (_instruction_data : Bytes) :
    Except Err Unit × List AccountView × List ClosureCall :=
  match accounts with
  | user :: vault :: rest =>
    if !user.is_signer then (.error .missingRequiredSignature, accounts, [])
    else
      let pb := fpa [vaultSeed, user.address] program_id
      if pb.1 ≠ vault.address then (.error .invalidSeeds, accounts, [])
      else if vault.data.length < 40 then (.error .invalidAccountData, accounts, [])
      else
        let d1 := writeRange vault.data 0 user.address
        let d2 := writeRange d1 32 (u64_to_le_bytes 0)
        (.ok (), user :: { vault with data := d2 } :: rest, [])
  | _ => (.error .notEnoughAccountKeys, accounts, [])

/-- `process_deposit`. -/
def process_deposit (fpa : Fpa) (transferResult : Except Err Unit) (program_id : Bytes)
    (accounts : List AccountView) (instruction_data : Bytes) :
    Except Err Unit × List AccountView × List ClosureCall :=
  match accounts with
  | user :: vault :: w :: rest =>
    if !user.is_signer then (.error .missingRequiredSignature, accounts, [])
    else
      let pb := fpa [vaultSeed, user.address] program_id
      if pb.1 ≠ vault.address then (.error .invalidSeeds, accounts, [])
      else
        match sliceGet instruction_data 0 8 with
        | none => (.error .panicked, accounts, [])
        | some ab =>
          let amount := u64_from_le_bytes ab
          match get_balance vault.data with
          | .error e => (.error e, accounts, [])
          | .ok old_balance =>
            match checked_add old_balance amount with
            | none => (.error .arithmeticOverflow, accounts, [])
            | some new_balance =>
              match set_balance vault.data new_balance with
              | .error e => (.error e, accounts, [])
              | .ok d2 =>
                match transferResult with
                | .error e => (.error e, user :: { vault with data := d2 } :: w :: rest, [])
                | .ok _ => (.ok (), user :: { vault with data := d2 } :: w :: rest, [])
  | _ => (.error .notEnoughAccountKeys, accounts, [])

/-- `process_close`: ownership re-verification, zeroing of all vault data,
residual lamports transfer, then reassignment to the system program. -/
def process_close (fpa : Fpa) (transferResult assignResult : Except Err Unit)
    (program_id : Bytes) (accounts : List AccountView) (_instruction_data : Bytes) :
    Except Err Unit × List AccountView × List ClosureCall :=
  match accounts with
  | user :: vault :: rest =>
    if !user.is_signer then (.error .missingRequiredSignature, accounts, [])
    else
      let pb := fpa [vaultSeed, user.address] program_id
      if pb.1 ≠ vault.address then (.error .invalidSeeds, accounts, [])
      else
        match get_owner vault.data with
        | .error e => (.error e, accounts, [])
        | .ok owner =>
          if owner ≠ user.address then (.error .illegalOwner, accounts, [])
          else
            let zeroed := List.replicate vault.data.length 0
            let vault1 := { vault with data := zeroed }
            let vault_lamports := vault.lamports
            match transferResult with
            | .error e =>
              (.error e, user :: vault1 :: rest,
               [ClosureCall.transferCall zeroed vault_lamports])
            | .ok _ =>
              let user2 := { user with lamports := user.lamports + vault_lamports }
              let vault2 := { vault1 with lamports := 0 }
              match assignResult with
              | .error e =>
                (.error e, user2 :: vault2 :: rest,
                 [ClosureCall.transferCall zeroed vault_lamports,
                  ClosureCall.assignCall zeroed systemProgramId])
              | .ok _ =>
                (.ok (), user2 :: { vault2 with owner_program := systemProgramId } :: rest,
                 [ClosureCall.transferCall zeroed vault_lamports,
                  ClosureCall.assignCall zeroed systemProgramId])
  | _ => (.error .notEnoughAccountKeys, accounts, [])

/-- `process_instruction`: dispatch on the first payload byte
(`0` initialize, `1` deposit, `2` close, anything else rejected). -/
def process_instruction (fpa : Fpa) (transferResult closeTransferResult assignResult : Except Err Unit)
    (program_id : Bytes) (accounts : List AccountView) (instruction_data : Bytes) :
    Except Err Unit × List AccountView × List ClosureCall :=
  match instruction_data with
  | [] => (.error .invalidInstructionData, accounts, [])
  | t :: rest =>
    if t = 0 then process_initialize fpa program_id accounts rest
    else if t = 1 then process_deposit fpa transferResult program_id accounts rest
    else if t = 2 then process_close fpa closeTransferResult assignResult program_id accounts rest
    else (.error .invalidInstructionData, accounts, [])

end Closure

namespace Overflow

/-! Embedding of `examples/03-arithmetic-overflow/pinocchio/secure/src/lib.rs`.
This variant additionally converts the program id to a 32-byte array before
the derivation, failing with `InvalidAccountData` on any other length. -/

/-- `get_owner`: bytes `0..32` of the vault data. -/
def get_owner (vault_data : Bytes) : Except Err Bytes :=
  match sliceGet vault_data 0 32 with
  | some s => .ok s
  | none => .error .invalidAccountData

/-- `get_balance`: little-endian u64 at bytes `32..40`. -/
def get_balance (vault_data : Bytes) : Except Err Nat :=
  match sliceGet vault_data 32 40 with
  | some s => .ok (u64_from_le_bytes s)
  | none => .error .invalidAccountData

/-- `set_balance`: write the little-endian u64 at bytes `32..40`. -/
def set_balance (vault_data : Bytes) (balance : Nat) : Except Err Bytes :=
  if 40 ≤ vault_data.length then
    .ok (writeRange vault_data 32 (u64_to_le_bytes balance))
  else .error .invalidAccountData

/-- `process_deposit`: checked addition of the deposited amount. -/
def process_deposit (fpa : Fpa) (transferResult : Except Err Unit) (program_id : Bytes)
    (accounts : List AccountView) (instruction_data : Bytes) :
    Except Err Unit × List AccountView :=
  match accounts with
  | user :: vault :: w :: rest =>
    if !user.is_signer then (.error .missingRequiredSignature, accounts)
    else if program_id.length ≠ 32 then (.error .invalidAccountData, accounts)
    else
      let pb := fpa [vaultSeed, user.address] program_id
      if pb.1 ≠ vault.address then (.error .invalidSeeds, accounts)
      else
        match sliceGet instruction_data 0 8 with
        | none => (.error .panicked, accounts)
        | some ab =>
          let amount := u64_from_le_bytes ab
          match get_balance vault.data with
          | .error e => (.error e, accounts)
          | .ok old_balance =>
            match checked_add old_balance amount with
            | none => (.error .arithmeticOverflow, accounts)
            | some new_balance =>
              match set_balance vault.data new_balance with
              | .error e => (.error e, accounts)
              | .ok d2 =>
                match transferResult with
                | .error e => (.error e, user :: { vault with data := d2 } :: w :: rest)
                | .ok _ => (.ok (), user :: { vault with data := d2 } :: w :: rest)
  | _ => (.error .notEnoughAccountKeys, accounts)

/-- `process_withdraw`: checked subtraction of the withdrawn amount. -/
def process_withdraw (fpa : Fpa) (transferResult : Except Err Unit) (program_id : Bytes)
    (accounts : List AccountView) (instruction_data : Bytes) :
    Except Err Unit × List AccountView :=
  match accounts with
  | user :: vault :: rest =>
    match sliceGet instruction_data 0 8 with
    | none => (.error .panicked, accounts)
    | some ab =>
      let amount := u64_from_le_bytes ab
      if !user.is_signer then (.error .missingRequiredSignature, accounts)
      else if program_id.length ≠ 32 then (.error .invalidAccountData, accounts)
      else
        let pb := fpa [vaultSeed, user.address] program_id
        if pb.1 ≠ vault.address then (.error .invalidSeeds, accounts)
        else
          match get_owner vault.data with
          | .error e => (.error e, accounts)
          | .ok owner =>
            if owner ≠ user.address then (.error .illegalOwner, accounts)
            else
              match get_balance vault.data with
              | .error e => (.error e, accounts)
              | .ok old_balance =>
                match checked_sub old_balance amount with
                | none => (.error .insufficientFunds, accounts)
                | some new_balance =>
                  match set_balance vault.data new_balance with
                  | .error e => (.error e, accounts)
                  | .ok d2 =>
                    match transferResult with
                    | .error e => (.error e, user :: { vault with data := d2 } :: rest)
                    | .ok _ => (.ok (), user :: { vault with data := d2 } :: rest)
  | _ => (.error .notEnoughAccountKeys, accounts)

end Overflow

namespace PdaCheck

/-! Embedding of
`solana-security-cookbook/examples/02-incorrect-pda-validation/pinocchio/secure/src/lib.rs`,
`process_withdraw`.  The external lamport transfer is recorded in a trace
of `(source, destination, amount)` triples. -/

/-- `process_withdraw`: re-derivation of the vault address strictly before
the signed transfer; this program variant keeps no record data, so the
derivation check is the sole gate on the handle. -/
def process_withdraw (fpa : Fpa) (transferResult : Except Err Unit) (program_id : Bytes)
    (accounts : List AccountView) (instruction_data : Bytes) :
    Except Err Unit × List AccountView × List (Bytes × Bytes × Nat) :=
  match accounts with
  | user :: vault :: _rest =>
    match sliceGet instruction_data 0 8 with
    | none => (.error .panicked, accounts, [])
    | some ab =>
      let amount := u64_from_le_bytes ab
      if !user.is_signer then (.error .missingRequiredSignature, accounts, [])
      else
        let pb := fpa [vaultSeed, user.address] program_id
        if pb.1 ≠ vault.address then (.error .invalidSeeds, accounts, [])
        else
          match transferResult with
          | .error e => (.error e, accounts, [(vault.address, user.address, amount)])
          | .ok _ => (.ok (), accounts, [(vault.address, user.address, amount)])
  | _ => (.error .notEnoughAccountKeys, accounts, [])

end PdaCheck

namespace Toctou

/-! Embedding of `examples/08-toctou-race-condition/pinocchio/secure/src/lib.rs`.
`set_vault_locked` and `update_vault_balance` are, exactly as in the
source, placeholders that return `Ok` and touch no account data.  The
token-program CPI is recorded in a trace and its outcome supplied as a
parameter; its effect on the token accounts belongs to the token program,
not to this program's code. -/

/-- One recorded token-transfer CPI. -/
structure TokenTransfer where
  src : Bytes
  dst : Bytes
  authority : Bytes
  amount : Nat
  deriving DecidableEq, Repr

/-- `get_token_account_balance`: little-endian u64 at bytes `12..20` of a
token account of at least 64 bytes. -/
def get_token_account_balance (account : AccountView) : Except Err Nat :=
  if account.data.length < 64 then .error .invalidAccountData
  else
    match sliceGet account.data 12 20 with
    | some s => .ok (u64_from_le_bytes s)
    | none => .error .invalidAccountData

/-- `get_vault_bump`: byte 16 of the vault data. -/
def get_vault_bump (vault : AccountView) : Except Err Nat :=
  if vault.data.length < 17 then .error .invalidAccountData
  else .ok (vault.data.getD 16 0)

/-- `get_vault_locked`: byte 17 of the vault data, read as a boolean. -/
def get_vault_locked (vault : AccountView) : Except Err Bool :=
  if vault.data.length < 18 then .error .invalidAccountData
  else .ok (vault.data.getD 17 0 != 0)

/-- `set_vault_locked`: simulated lock mutation — returns `Ok` and leaves
every account untouched, as in the source. -/
def set_vault_locked (_vault : AccountView) (_locked : Bool) : Except Err Unit :=
  .ok ()

/-- `update_vault_balance`: simulated balance mutation — returns `Ok`
without invoking the supplied closure, as in the source. -/
def update_vault_balance (_vault : AccountView) (_f : Nat → Except Err Nat) :
    Except Err Unit :=
  .ok ()

/-- `withdraw` of the TOCTOU example: reentrancy-guard check, balance
check against the vault token account, simulated effects, then the
token-program CPI. -/
def withdraw (accounts : List AccountView) (amount : Nat)
    (cpiResult : Except Err Unit) :
    Except Err Unit × List AccountView × List TokenTransfer :=
  match accounts with
  | user :: vault :: vault_token_account :: user_token_account :: _token_program :: _rest =>
    if !user.is_signer then (.error .missingRequiredSignature, accounts, [])
    else if !user.is_writable || !vault.is_writable || !vault_token_account.is_writable
        || !user_token_account.is_writable then
      (.error .invalidAccountData, accounts, [])
    else
      match get_vault_locked vault with
      | .error e => (.error e, accounts, [])
      | .ok is_locked =>
        if is_locked then (.error (.custom 3), accounts, [])
        else
          match set_vault_locked vault true with
          | .error e => (.error e, accounts, [])
          | .ok _ =>
            match get_token_account_balance vault_token_account with
            | .error e => (.error e, accounts, [])
            | .ok vault_ta_amount =>
              if vault_ta_amount < amount then
                match set_vault_locked vault false with
                | .error e => (.error e, accounts, [])
                | .ok _ => (.error .insufficientFunds, accounts, [])
              else
                match update_vault_balance vault (fun balance =>
                    match checked_sub balance amount with
                    | some x => .ok x
                    | none => .error .panicked) with
                | .error e => (.error e, accounts, [])
                | .ok _ =>
                  match get_vault_bump vault with
                  | .error e => (.error e, accounts, [])
                  | .ok _bump =>
                    let call : TokenTransfer :=
                      ⟨vault_token_account.address, user_token_account.address,
                       vault.address, amount⟩
                    match cpiResult with
                    | .error e => (.error e, accounts, [call])
                    | .ok _ =>
                      match set_vault_locked vault false with
                      | .error e => (.error e, accounts, [call])
                      | .ok _ => (.ok (), accounts, [call])
  | _ => (.error .notEnoughAccountKeys, accounts, [])

end Toctou

namespace ToctouAnchor

/-! Embedding of
`docs/examples/08-toctou-race-condition/anchor/secure/programs/secure/src/lib.rs`.
The deserialized `Vault` account is a typed record; the token CPI outcome
is a parameter and the returned boolean records whether the CPI was
invoked. -/

/-- The `Vault` account of the anchor variant. -/
structure Vault where
  total_deposits : Nat
  bump : Nat
  locked : Bool
  deriving DecidableEq, Repr

/-- `withdraw`: guard check and acquisition, balance check, checked
subtraction (whose `unwrap` panics on underflow), CPI, release. -/
def withdraw (vault : Vault) (vault_ta_amount : Nat) (amount : Nat)
    (cpiResult : Except Err Unit) : Except Err Unit × Vault × Bool :=
  if vault.locked then (.error .reentrancyBlocked, vault, false)
  else
    let vault1 : Vault := { vault with locked := true }
    if vault_ta_amount < amount then (.error .insufficientFunds, vault1, false)
    else
      match checked_sub vault1.total_deposits amount with
      | none => (.error .panicked, vault1, false)
      | some n =>
        let vault2 : Vault := { vault1 with total_deposits := n }
        match cpiResult with
        | .error e => (.error e, vault2, true)
        | .ok _ => (.ok (), { vault2 with locked := false }, true)

end ToctouAnchor

namespace Cpi

/-! Embedding of `examples/07-arbitrary-cpi-validation/pinocchio/secure/src/lib.rs`.
The trace lists the program ids of every CPI actually invoked. -/

/-- The hard-coded SPL token program id of the source. -/
def TOKEN_PROGRAM_ID : Bytes :=
  [6, 167, 193, 139, 199, 189, 237, 239, 137, 224, 5, 48, 156, 125, 156, 176,
   240, 141, 217, 211, 117, 122, 180, 156, 191, 183, 23, 103, 196, 139, 142, 112]

/-- `get_token_account_mint`: bytes `0..32` of a token account. -/
def get_token_account_mint (account : AccountView) : Except Err Bytes :=
  if account.data.length < 32 then .error .invalidAccountData
  else
    match sliceGet account.data 0 32 with
    | some s => .ok s
    | none => .error .invalidAccountData

/-- `get_vault_bump`: byte 8 of the vault data. -/
def get_vault_bump (vault : AccountView) : Except Err Nat :=
  if vault.data.length < 9 then .error .invalidAccountData
  else .ok (vault.data.getD 8 0)

/-- `execute_swap`: callee identity validated against the fixed token
program id strictly before the CPI is issued.  The trace records, for each
CPI actually invoked, the callee program id and the transfer amount of the
instruction handed to it. -/
def execute_swap (accounts : List AccountView) (amount : Nat)
    (cpiResult : Except Err Unit) : Except Err Unit × List (Bytes × Nat) :=
  match accounts with
  | user :: token_program :: vault_token_account :: user_token_account :: vault :: _rest =>
    if !user.is_signer then (.error .missingRequiredSignature, [])
    else if !user.is_writable || !vault_token_account.is_writable
        || !user_token_account.is_writable || !vault.is_writable then
      (.error .invalidAccountData, [])
    else if token_program.address ≠ TOKEN_PROGRAM_ID then (.error (.custom 1), [])
    else
      match get_token_account_mint vault_token_account with
      | .error e => (.error e, [])
      | .ok vault_ta_mint =>
        match get_token_account_mint user_token_account with
        | .error e => (.error e, [])
        | .ok user_ta_mint =>
          if vault_ta_mint ≠ user_ta_mint then (.error (.custom 2), [])
          else
            match get_vault_bump vault with
            | .error e => (.error e, [])
            | .ok _bump =>
              match cpiResult with
              | .error e => (.error e, [(token_program.address, amount)])
              | .ok _ => (.ok (), [(token_program.address, amount)])
  | _ => (.error .notEnoughAccountKeys, [])

end Cpi

/-! ## Concrete sample inputs used by the closed instances -/

/-- A sample user address (32 bytes). -/
def addrU : Bytes := List.replicate 32 1

/-- A sample derived vault address (32 bytes). -/
def addrV : Bytes := List.replicate 32 2

/-- A sample program id (32 bytes). -/
def pid0 : Bytes := List.replicate 32 7

/-- A sample derivation function mapping every seed list to `addrV` with
bump 254. -/
def cfpa : Fpa := fun _ _ => (addrV, 254)

/-- A sample signing user account. -/
def sampleUser : AccountView := ⟨addrU, true, true, [], 1000, systemProgramId⟩

/-- A sample vault account at `addrV`, owned by `addrU`, with balance 100. -/
def sampleVault : AccountView :=
  ⟨addrV, false, true, addrU ++ u64_to_le_bytes 100, 5000, pid0⟩

/-- An external-call handler that succeeds and leaves the state unchanged. -/
def okHandler : Bytes → Except Err Unit × Bytes := fun st => (.ok (), st)

/-- A sample vault account at `addrV`, owned by `addrU`, with the maximal
u64 balance. -/
def sampleVaultMax : AccountView :=
  ⟨addrV, false, true, addrU ++ u64_to_le_bytes (U64LIMIT - 1), 5000, pid0⟩

/-- A sample third account (unused filler required by the deposit layout). -/
def sampleThird : AccountView :=
  ⟨List.replicate 32 3, false, true, [], 0, systemProgramId⟩

/-- A sample vault handle whose address matches no derivation. -/
def sampleBadVault : AccountView :=
  ⟨List.replicate 32 13, false, true, [], 0, pid0⟩

/-- A sample TOCTOU vault record: 18 bytes with bump 9 at offset 16 and
the lock flag byte at offset 17. -/
def tVault (lockByte : Nat) : AccountView :=
  ⟨List.replicate 32 9, false, true, List.replicate 16 0 ++ [9, lockByte], 0, pid0⟩

/-- Sample 64-byte token-account data holding balance `n` at offset 12. -/
def taData (n : Nat) : Bytes :=
  List.replicate 12 0 ++ u64_to_le_bytes n ++ List.replicate 44 0

/-- A sample vault token account with balance `bal`. -/
def tVaultTa (bal : Nat) : AccountView :=
  ⟨List.replicate 32 4, false, true, taData bal, 0, systemProgramId⟩

/-- A sample user token account. -/
def tUserTa : AccountView :=
  ⟨List.replicate 32 6, false, true, taData 0, 0, systemProgramId⟩

/-- A sample token-program account at the hard-coded token program id. -/
def tTokenProg : AccountView :=
  ⟨Cpi.TOKEN_PROGRAM_ID, false, false, [], 0, systemProgramId⟩

/-! ## General byte-level lemmas -/

theorem u64_le_bytes_roundtrip (n : Nat) (h : n < U64LIMIT) :
    u64_from_le_bytes (u64_to_le_bytes n) = n := by
  simp only [u64_from_le_bytes, u64_to_le_bytes, List.foldr]
  simp only [U64LIMIT] at h
  omega

theorem u64_to_le_bytes_length (n : Nat) : (u64_to_le_bytes n).length = 8 := by
  simp [u64_to_le_bytes]

theorem writeRange_length (l : Bytes) (start : Nat) (src : Bytes)
    (h : start + src.length ≤ l.length) :
    (writeRange l start src).length = l.length := by
  simp only [writeRange, List.length_append, List.length_take, List.length_drop]
  omega

theorem writeRange_take (l : Bytes) (start : Nat) (src : Bytes)
    (h : start ≤ l.length) :
    (writeRange l start src).take start = l.take start := by
  simp only [writeRange]
  rw [List.append_assoc,
    List.take_append_of_le_length (by simp only [List.length_take]; omega),
    List.take_take]
  simp

theorem writeRange_drop (l : Bytes) (start : Nat) (src : Bytes)
    (h : l.length = start + src.length) :
    (writeRange l start src).drop start = src := by
  simp only [writeRange]
  have h0 : l.drop (start + src.length) = [] := by
    apply List.drop_eq_nil_of_le
    omega
  have h1 : (l.take start).length = start := by
    simp only [List.length_take]
    omega
  rw [h0, List.append_nil, List.drop_append_of_le_length (by omega),
    List.drop_eq_nil_of_le (by omega), List.nil_append]

theorem sliceGet_exact (l : Bytes) (n : Nat) (h : l.length = n) :
    sliceGet l 0 n = some l := by
  simp [sliceGet, h]

namespace Reentrancy

theorem reentrancy_get_owner_eq (l : Bytes) (h : 32 ≤ l.length) :
    get_owner l = .ok (l.take 32) := by
  simp [get_owner, sliceGet, h]

theorem reentrancy_get_balance_eq (l : Bytes) (h : l.length = 40) :
    get_balance l = .ok (u64_from_le_bytes ((l.drop 32).take 8)) := by
  simp [get_balance, sliceGet, h]

theorem reentrancy_get_balance_writeRange (l : Bytes) (b : Nat) (h : l.length = 40)
    (hb : b < U64LIMIT) :
    get_balance (writeRange l 32 (u64_to_le_bytes b)) = .ok b := by
  have hl : (writeRange l 32 (u64_to_le_bytes b)).length = 40 := by
    rw [writeRange_length]
    · exact h
    · rw [u64_to_le_bytes_length, h]
  rw [reentrancy_get_balance_eq _ hl,
    writeRange_drop l 32 (u64_to_le_bytes b) (by rw [u64_to_le_bytes_length, h]),
    List.take_of_length_le (by rw [u64_to_le_bytes_length]),
    u64_le_bytes_roundtrip b hb]

theorem reentrancy_withdraw_insufficient (fpa : Fpa) (h : Bytes → Except Err Unit × Bytes)
    (pid : Bytes) (user vault : AccountView) (rest : List AccountView)
    (a balance bump : Nat)
    (hs : user.is_signer = true)
    (hfpa : fpa [vaultSeed, user.address] pid = (vault.address, bump))
    (hlen : vault.data.length = 40)
    (howner : vault.data.take 32 = user.address)
    (hbal : get_balance vault.data = .ok balance)
    (ha : a < U64LIMIT)
    (hlt : balance < a) :
    process_withdraw fpa h pid (user :: vault :: rest) (u64_to_le_bytes a)
      = (.error .insufficientFunds, user :: vault :: rest) := by
  have hp : sliceGet (u64_to_le_bytes a) 0 8 = some (u64_to_le_bytes a) :=
    sliceGet_exact _ _ (u64_to_le_bytes_length a)
  have hgo : get_owner vault.data = .ok (vault.data.take 32) :=
    reentrancy_get_owner_eq _ (by omega)
  simp only [process_withdraw, hp, u64_le_bytes_roundtrip a ha, hs, hfpa, hgo, howner,
    hbal, Bool.not_true]
  rw [if_neg (by decide), if_neg (fun hne => hne rfl), if_neg (fun hne => hne rfl),
    if_pos hlt]

theorem reentrancy_withdraw_commit (fpa : Fpa) (h : Bytes → Except Err Unit × Bytes)
    (pid : Bytes) (user vault : AccountView) (rest : List AccountView)
    (a balance bump : Nat)
    (hs : user.is_signer = true)
    (hfpa : fpa [vaultSeed, user.address] pid = (vault.address, bump))
    (hlen : vault.data.length = 40)
    (howner : vault.data.take 32 = user.address)
    (hbal : get_balance vault.data = .ok balance)
    (ha : a < U64LIMIT)
    (hble : a ≤ balance) :
    process_withdraw fpa h pid (user :: vault :: rest) (u64_to_le_bytes a)
      = ((h (writeRange vault.data 32 (u64_to_le_bytes (balance - a)))).1,
         user ::
           { vault with
             data := (h (writeRange vault.data 32 (u64_to_le_bytes (balance - a)))).2 }
           :: rest) := by
  have hp : sliceGet (u64_to_le_bytes a) 0 8 = some (u64_to_le_bytes a) :=
    sliceGet_exact _ _ (u64_to_le_bytes_length a)
  have hgo : get_owner vault.data = .ok (vault.data.take 32) :=
    reentrancy_get_owner_eq _ (by omega)
  simp only [process_withdraw, hp, u64_le_bytes_roundtrip a ha, hs, hfpa, hgo, howner,
    hbal, Bool.not_true]
  rw [if_neg (by decide), if_neg (fun hne => hne rfl), if_neg (fun hne => hne rfl),
    if_neg (by omega)]
  simp only [checked_sub]
  rw [if_pos hble]
  simp only [set_balance]
  rw [if_pos (by omega : 40 ≤ vault.data.length)]
  cases h1 : (h (writeRange vault.data 32 (u64_to_le_bytes (balance - a)))).1 with
  | error e => simp [h1]
  | ok u => cases u; simp [h1]

/-- C1: for every withdraw that passes its checks, the decremented balance
is committed to the vault data strictly before the external transfer call,
so the interaction handler observes the already-decremented balance; a
re-entrant withdraw started from inside that interaction step whose amount
exceeds the remaining balance is rejected by its own sufficiency check,
and the two withdraws never both succeed when their combined amount
exceeds the initial balance. -/
theorem cei_reentrant_withdraw_rejected
    (fpa : Fpa) (h2 : Bytes → Except Err Unit × Bytes) (pid : Bytes)
    (user vault : AccountView) (rest : List AccountView)
    (a1 a2 balance bump : Nat)
    (hs : user.is_signer = true)
    (hfpa : fpa [vaultSeed, user.address] pid = (vault.address, bump))
    (hlen : vault.data.length = 40)
    (howner : vault.data.take 32 = user.address)
    (hbal : get_balance vault.data = .ok balance)
    (hblim : balance < U64LIMIT)
    (ha1 : a1 < U64LIMIT) (ha2 : a2 < U64LIMIT)
    (hsuff : a1 ≤ balance)
    (hcomb : balance < a1 + a2) :
    get_balance (writeRange vault.data 32 (u64_to_le_bytes (balance - a1)))
        = .ok (balance - a1)
    ∧ process_withdraw fpa h2 pid
        (user ::
          { vault with data := writeRange vault.data 32 (u64_to_le_bytes (balance - a1)) }
          :: rest)
        (u64_to_le_bytes a2)
      = (.error .insufficientFunds,
         user ::
           { vault with data := writeRange vault.data 32 (u64_to_le_bytes (balance - a1)) }
           :: rest)
    ∧ process_withdraw fpa
        (reentrantHandler fpa h2 pid user vault rest (u64_to_le_bytes a2)) pid
        (user :: vault :: rest) (u64_to_le_bytes a1)
      = (.error .insufficientFunds,
         user ::
           { vault with data := writeRange vault.data 32 (u64_to_le_bytes (balance - a1)) }
           :: rest) := by
  have hmlen : (writeRange vault.data 32 (u64_to_le_bytes (balance - a1))).length = 40 := by
    rw [writeRange_length]
    · exact hlen
    · rw [u64_to_le_bytes_length, hlen]
  have p1 : get_balance (writeRange vault.data 32 (u64_to_le_bytes (balance - a1)))
      = .ok (balance - a1) :=
    reentrancy_get_balance_writeRange _ _ hlen (by omega)
  have howner2 : (writeRange vault.data 32 (u64_to_le_bytes (balance - a1))).take 32
      = user.address := by
    rw [writeRange_take _ _ _ (by omega), howner]
  have p2 := reentrancy_withdraw_insufficient fpa h2 pid user
    { vault with data := writeRange vault.data 32 (u64_to_le_bytes (balance - a1)) }
    rest a2 (balance - a1) bump hs hfpa hmlen howner2 p1 ha2 (by omega)
  have hrh : reentrantHandler fpa h2 pid user vault rest (u64_to_le_bytes a2)
      (writeRange vault.data 32 (u64_to_le_bytes (balance - a1)))
      = (.error .insufficientFunds,
         writeRange vault.data 32 (u64_to_le_bytes (balance - a1))) := by
    simp only [reentrantHandler, p2]
  have p3 := reentrancy_withdraw_commit fpa
    (reentrantHandler fpa h2 pid user vault rest (u64_to_le_bytes a2)) pid
    user vault rest a1 balance bump hs hfpa hlen howner hbal ha1 hsuff
  refine ⟨p1, p2, ?_⟩
  rw [p3, hrh]

/-- Closed instance of `cei_reentrant_withdraw_rejected`: balance 100,
outer withdraw of 60, re-entrant withdraw of 60. -/
theorem cei_reentrant_withdraw_rejected_witness :
    get_balance (writeRange sampleVault.data 32 (u64_to_le_bytes (100 - 60)))
        = .ok (100 - 60)
    ∧ process_withdraw cfpa okHandler pid0
        (sampleUser ::
          { sampleVault with
            data := writeRange sampleVault.data 32 (u64_to_le_bytes (100 - 60)) }
          :: [])
        (u64_to_le_bytes 60)
      = (.error .insufficientFunds,
         sampleUser ::
           { sampleVault with
             data := writeRange sampleVault.data 32 (u64_to_le_bytes (100 - 60)) }
           :: [])
    ∧ process_withdraw cfpa
        (reentrantHandler cfpa okHandler pid0 sampleUser sampleVault [] (u64_to_le_bytes 60))
        pid0 (sampleUser :: sampleVault :: []) (u64_to_le_bytes 60)
      = (.error .insufficientFunds,
         sampleUser ::
           { sampleVault with
             data := writeRange sampleVault.data 32 (u64_to_le_bytes (100 - 60)) }
           :: []) :=
  cei_reentrant_withdraw_rejected cfpa okHandler pid0 sampleUser sampleVault []
    60 60 100 254 rfl rfl (by rfl) (by rfl) (by rfl) (by decide) (by decide)
    (by decide) (by decide) (by decide)

end Reentrancy

namespace Overflow

theorem overflow_get_owner_eq (l : Bytes) (h : 32 ≤ l.length) :
    get_owner l = .ok (l.take 32) := by
  simp [get_owner, sliceGet, h]

/-- C2: when the stored balance plus the deposited amount leaves the
64-bit range, `process_deposit` fails with `ArithmeticOverflow` and every
account is returned unchanged; when the withdrawn amount strictly exceeds
the stored balance, `process_withdraw` fails with `InsufficientFunds` and
every account is returned unchanged — the balance never wraps. -/
theorem checked_arithmetic_no_wrap
    (fpa : Fpa) (trD trW : Except Err Unit) (pid : Bytes)
    (user vaultD vaultW w : AccountView) (restD restW : List AccountView)
    (amountD amountW balD balW bumpD bumpW : Nat)
    (hs : user.is_signer = true)
    (hpid : pid.length = 32)
    (hfpaD : fpa [vaultSeed, user.address] pid = (vaultD.address, bumpD))
    (hbalD : get_balance vaultD.data = .ok balD)
    (haD : amountD < U64LIMIT)
    (hover : U64LIMIT ≤ balD + amountD)
    (hfpaW : fpa [vaultSeed, user.address] pid = (vaultW.address, bumpW))
    (hlenW : 32 ≤ vaultW.data.length)
    (hownerW : vaultW.data.take 32 = user.address)
    (hbalW : get_balance vaultW.data = .ok balW)
    (haW : amountW < U64LIMIT)
    (hltW : balW < amountW) :
    process_deposit fpa trD pid (user :: vaultD :: w :: restD) (u64_to_le_bytes amountD)
      = (.error .arithmeticOverflow, user :: vaultD :: w :: restD)
    ∧ process_withdraw fpa trW pid (user :: vaultW :: restW) (u64_to_le_bytes amountW)
      = (.error .insufficientFunds, user :: vaultW :: restW) := by
  constructor
  · have hp : sliceGet (u64_to_le_bytes amountD) 0 8 = some (u64_to_le_bytes amountD) :=
      sliceGet_exact _ _ (u64_to_le_bytes_length _)
    simp only [process_deposit, hs, Bool.not_true, hpid, hfpaD, hp,
      u64_le_bytes_roundtrip _ haD, hbalD, checked_add]
    rw [if_neg (by decide), if_neg (fun hne => hne rfl), if_neg (fun hne => hne rfl),
      if_neg (by omega)]
  · have hp : sliceGet (u64_to_le_bytes amountW) 0 8 = some (u64_to_le_bytes amountW) :=
      sliceGet_exact _ _ (u64_to_le_bytes_length _)
    have hgo : get_owner vaultW.data = .ok (vaultW.data.take 32) :=
      overflow_get_owner_eq _ hlenW
    simp only [process_withdraw, hp, u64_le_bytes_roundtrip _ haW, hs, Bool.not_true,
      hpid, hfpaW, hgo, hownerW, hbalW, checked_sub]
    rw [if_neg (by decide), if_neg (fun hne => hne rfl), if_neg (fun hne => hne rfl),
      if_neg (fun hne => hne rfl), if_neg (by omega)]

/-- Closed instance of `checked_arithmetic_no_wrap`: deposit of 1 on the
maximal balance, withdraw of 150 on balance 100. -/
theorem checked_arithmetic_no_wrap_witness :
    process_deposit cfpa (.ok ()) pid0
        (sampleUser :: sampleVaultMax :: sampleThird :: []) (u64_to_le_bytes 1)
      = (.error .arithmeticOverflow, sampleUser :: sampleVaultMax :: sampleThird :: [])
    ∧ process_withdraw cfpa (.ok ()) pid0
        (sampleUser :: sampleVault :: []) (u64_to_le_bytes 150)
      = (.error .insufficientFunds, sampleUser :: sampleVault :: []) :=
  checked_arithmetic_no_wrap cfpa (.ok ()) (.ok ()) pid0
    sampleUser sampleVaultMax sampleVault sampleThird [] []
    1 150 (U64LIMIT - 1) 100 254 254
    rfl (by rfl) rfl (by rfl) (by decide) (by decide)
    rfl (by decide) (by rfl) (by rfl) (by decide) (by decide)

end Overflow

/-- C10: in the TOCTOU-variant withdraw, the helpers `set_vault_locked`
and `update_vault_balance` always return `Ok` and modify no account data,
so every invocation — successful or failed — returns every account's
stored state exactly as it was before the call; only the recorded
external token transfer moves value. -/
theorem toctou_withdraw_never_mutates_accounts
    (accounts : List AccountView) (amount : Nat) (cpiResult : Except Err Unit) :
    (Toctou.withdraw accounts amount cpiResult).2.1 = accounts
    ∧ (∀ (v : AccountView) (l : Bool), Toctou.set_vault_locked v l = .ok ())
    ∧ (∀ (v : AccountView) (f : Nat → Except Err Nat),
        Toctou.update_vault_balance v f = .ok ()) := by
  refine ⟨?_, fun v l => rfl, fun v f => rfl⟩
  unfold Toctou.withdraw
  repeat' split
  all_goals rfl

/-- C4: a withdraw that reaches the reentrancy-guard check while the vault
record's locked flag is set fails with the ReentrancyBlocked error
(`Custom 3` in the pinocchio variant) and performs no balance check, no
state change, and no external call; likewise the anchor variant fails with
`ReentrancyBlocked` leaving the vault unchanged and the CPI not invoked. -/
theorem locked_flag_blocks_withdraw
    (user vault vt ut tp : AccountView) (rest : List AccountView)
    (amount : Nat) (cpi : Except Err Unit)
    (hs : user.is_signer = true)
    (hw : user.is_writable = true) (hwv : vault.is_writable = true)
    (hwvt : vt.is_writable = true) (hwut : ut.is_writable = true)
    (hlen : 18 ≤ vault.data.length)
    (hlocked : vault.data.getD 17 0 ≠ 0)
    (av : ToctouAnchor.Vault) (ta am : Nat) (acpi : Except Err Unit)
    (halocked : av.locked = true) :
    Toctou.withdraw (user :: vault :: vt :: ut :: tp :: rest) amount cpi
      = (.error (.custom 3), user :: vault :: vt :: ut :: tp :: rest, [])
    ∧ ToctouAnchor.withdraw av ta am acpi = (.error .reentrancyBlocked, av, false) := by
  constructor
  · have hl : (vault.data.getD 17 0 != 0) = true := by
      simp only [bne_iff_ne]
      exact hlocked
    simp only [Toctou.withdraw, hs, hw, hwv, hwvt, hwut, Bool.not_true,
      Bool.or_self, Bool.or_false, Bool.false_or, Toctou.get_vault_locked]
    rw [if_neg (by decide), if_neg (by decide), if_neg (by omega)]
    simp only [hl, if_pos]
  · simp [ToctouAnchor.withdraw, halocked]

/-- Closed instance of `locked_flag_blocks_withdraw`: locked pinocchio
vault record and locked anchor vault, withdraw of 5. -/
theorem locked_flag_blocks_withdraw_witness :
    Toctou.withdraw (sampleUser :: tVault 1 :: tVaultTa 100 :: tUserTa :: tTokenProg :: [])
        5 (.ok ())
      = (.error (.custom 3),
         sampleUser :: tVault 1 :: tVaultTa 100 :: tUserTa :: tTokenProg :: [], [])
    ∧ ToctouAnchor.withdraw ⟨1000, 9, true⟩ 50 5 (.ok ())
      = (.error .reentrancyBlocked, ⟨1000, 9, true⟩, false) :=
  locked_flag_blocks_withdraw sampleUser (tVault 1) (tVaultTa 100) tUserTa tTokenProg []
    5 (.ok ()) rfl rfl rfl rfl rfl (by decide) (by decide)
    ⟨1000, 9, true⟩ 50 5 (.ok ()) rfl

/-- C5 counterexample: an anchor withdraw that acquires the guard and
whose external transfer call then fails returns with the locked flag still
set — the release is skipped on that exit path, contradicting the claim
that the flag is false again on every return. -/
theorem guard_left_locked_on_cpi_failure :
    ToctouAnchor.withdraw ⟨10, 9, false⟩ 10 5 (.error (.custom 99))
      = (.error (.custom 99), ⟨5, 9, true⟩, true) := rfl

/-- C5 amended: the anchor withdraw releases the reentrancy guard only on
the full-success path; after acquisition, the insufficient-funds early
return and a failing external call both return with the locked flag still
set (the enclosing transaction's rollback, not an explicit release, is
what restores it). -/
theorem guard_release_only_on_success
    (v : ToctouAnchor.Vault) (ta am : Nat) :
    (∀ cpi : Except Err Unit, (ToctouAnchor.withdraw v ta am cpi).1 = .ok () →
        ((ToctouAnchor.withdraw v ta am cpi).2.1).locked = false)
    ∧ (v.locked = false → ta < am →
        ∀ cpi : Except Err Unit, ToctouAnchor.withdraw v ta am cpi
          = (.error .insufficientFunds, ⟨v.total_deposits, v.bump, true⟩, false))
    ∧ (∀ e : Err, v.locked = false → am ≤ ta → am ≤ v.total_deposits →
        ToctouAnchor.withdraw v ta am (.error e)
          = (.error e, ⟨v.total_deposits - am, v.bump, true⟩, true)) := by
  obtain ⟨td, bp, lk⟩ := v
  refine ⟨?_, ?_, ?_⟩
  · intro cpi hok
    generalize hW : ToctouAnchor.withdraw ⟨td, bp, lk⟩ ta am cpi = w at hok ⊢
    unfold ToctouAnchor.withdraw at hW
    split at hW
    · rw [← hW] at hok; simp at hok
    · split at hW
      · rw [← hW] at hok; simp at hok
      · split at hW
        · dsimp only at hW
          split at hW <;> (rw [← hW] at hok; simp at hok)
        · dsimp only at hW
          split at hW
          · rw [← hW] at hok; simp at hok
          · rw [← hW]
  · intro hl hta cpi
    subst hl
    simp only [ToctouAnchor.withdraw]
    rw [if_neg (by decide), if_pos hta]
  · intro e hl hta hbal
    subst hl
    simp only [ToctouAnchor.withdraw, checked_sub]
    rw [if_neg (by decide), if_neg (by omega), if_pos hbal]

/-- Closed instance of `guard_release_only_on_success`: the success path
returns unlocked; the insufficient-funds and failed-call paths return with
the flag still set. -/
theorem guard_release_only_on_success_witness :
    ((ToctouAnchor.withdraw ⟨100, 9, false⟩ 50 30 (.ok ())).2.1).locked = false
    ∧ ToctouAnchor.withdraw ⟨100, 9, false⟩ 20 30 (.ok ())
        = (.error .insufficientFunds, ⟨100, 9, true⟩, false)
    ∧ ToctouAnchor.withdraw ⟨100, 9, false⟩ 50 30 (.error (.custom 7))
        = (.error (.custom 7), ⟨70, 9, true⟩, true) :=
  ⟨(guard_release_only_on_success ⟨100, 9, false⟩ 50 30).1 (.ok ()) (by rfl),
   (guard_release_only_on_success ⟨100, 9, false⟩ 20 30).2.1 rfl (by decide) (.ok ()),
   (guard_release_only_on_success ⟨100, 9, false⟩ 50 30).2.2 (.custom 7) rfl
     (by decide) (by decide)⟩

/-- C3 counterexample: the TOCTOU-variant withdraw reaches and reads the
vault record through the caller-supplied handle with no address
re-derivation at all — its outcome is decided by the record's own bytes
(the locked flag, then the token balance) and is not the
invalid-derivation error, although the vault handle's address matches no
derivation. -/
theorem toctou_withdraw_reads_without_derivation :
    Toctou.withdraw (sampleUser :: tVault 1 :: tVaultTa 100 :: tUserTa :: tTokenProg :: [])
        7 (.ok ())
      = (.error (.custom 3),
         sampleUser :: tVault 1 :: tVaultTa 100 :: tUserTa :: tTokenProg :: [], [])
    ∧ Toctou.withdraw (sampleUser :: tVault 0 :: tVaultTa 3 :: tUserTa :: tTokenProg :: [])
        7 (.ok ())
      = (.error .insufficientFunds,
         sampleUser :: tVault 0 :: tVaultTa 3 :: tUserTa :: tTokenProg :: [], []) :=
  ⟨rfl, rfl⟩

/-- C3 amended: in the PDA-validation program, withdraw re-derives the
expected vault address from the fixed seed, the owner identity and the
program identity and fails with `InvalidSeeds` — before any state access
or external call — whenever the handle's address differs from the derived
address; the TOCTOU-variant withdraw, however, performs no re-derivation
and reads the vault record and the token balance through the
caller-supplied handle whatever its address is. -/
theorem pda_revalidation_before_use
    (fpa : Fpa) (tr : Except Err Unit) (pid : Bytes)
    (user vault : AccountView) (rest : List AccountView) (a : Nat)
    (hs : user.is_signer = true)
    (hmis : (fpa [vaultSeed, user.address] pid).1 ≠ vault.address) :
    PdaCheck.process_withdraw fpa tr pid (user :: vault :: rest) (u64_to_le_bytes a)
      = (.error .invalidSeeds, user :: vault :: rest, [])
    ∧ ∀ (u v vt ut tp : AccountView) (rest2 : List AccountView)
        (amount tb : Nat) (cpi : Except Err Unit) (addr : Bytes),
        u.is_signer = true → u.is_writable = true → v.is_writable = true →
        vt.is_writable = true → ut.is_writable = true →
        18 ≤ v.data.length → v.data.getD 17 0 = 0 →
        Toctou.get_token_account_balance vt = .ok tb → tb < amount →
        Toctou.withdraw (u :: { v with address := addr } :: vt :: ut :: tp :: rest2)
            amount cpi
          = (.error .insufficientFunds,
             u :: { v with address := addr } :: vt :: ut :: tp :: rest2, []) := by
  constructor
  · have hp : sliceGet (u64_to_le_bytes a) 0 8 = some (u64_to_le_bytes a) :=
      sliceGet_exact _ _ (u64_to_le_bytes_length _)
    simp only [PdaCheck.process_withdraw, hp, hs, Bool.not_true]
    rw [if_neg (by decide), if_pos hmis]
  · intro u v vt ut tp rest2 amount tb cpi addr hs2 hw1 hw2 hw3 hw4 hlen hunlocked htb hlt
    have hl : (v.data.getD 17 0 != 0) = false := by
      simp only [bne_eq_false_iff_eq]
      exact hunlocked
    simp only [Toctou.withdraw, hs2, hw1, hw2, hw3, hw4, Bool.not_true, Bool.or_self,
      Bool.or_false, Bool.false_or, Toctou.get_vault_locked, Toctou.set_vault_locked,
      htb, hl]
    rw [if_neg (by decide), if_neg (by decide), if_neg (by omega)]
    dsimp only
    rw [if_pos hlt, if_neg (by decide)]

/-- Closed instance of `pda_revalidation_before_use`: a vault handle at an
underived address is rejected with `InvalidSeeds` by the PDA-validation
withdraw, while the TOCTOU withdraw reads through an equally underived
handle and reports the record's insufficient balance. -/
theorem pda_revalidation_before_use_witness :
    PdaCheck.process_withdraw cfpa (.ok ()) pid0
        (sampleUser :: sampleBadVault :: []) (u64_to_le_bytes 5)
      = (.error .invalidSeeds, sampleUser :: sampleBadVault :: [], [])
    ∧ Toctou.withdraw
        (sampleUser :: { tVault 0 with address := List.replicate 32 13 }
          :: tVaultTa 3 :: tUserTa :: tTokenProg :: []) 7 (.ok ())
      = (.error .insufficientFunds,
         sampleUser :: { tVault 0 with address := List.replicate 32 13 }
           :: tVaultTa 3 :: tUserTa :: tTokenProg :: [], []) := by
  have h := pda_revalidation_before_use cfpa (.ok ()) pid0 sampleUser sampleBadVault []
    5 rfl (by decide)
  exact ⟨h.1, h.2 sampleUser (tVault 0) (tVaultTa 3) tUserTa tTokenProg [] 7 3 (.ok ())
    (List.replicate 32 13) rfl rfl rfl rfl rfl (by decide) (by decide) (by rfl) (by decide)⟩

theorem closure_get_owner_eq (l : Bytes) (h : 32 ≤ l.length) :
    Closure.get_owner l = .ok (l.take 32) := by
  simp [Closure.get_owner, sliceGet, h]

/-- C6: after re-verifying ownership, `process_close` zeroes every byte of
the vault data before the residual transfer is invoked (both recorded
external calls see the all-zero snapshot, and the assign call is only made
after a successful transfer); the final vault data is all zeros on every
path, even when the transfer call fails, and the storage ownership is
reassigned to the system program only on the fully successful path, after
the transfer. -/
theorem close_zeroes_before_external_calls
    (fpa : Fpa) (pid d : Bytes)
    (user vault : AccountView) (rest : List AccountView) (bump : Nat)
    (hs : user.is_signer = true)
    (hfpa : fpa [vaultSeed, user.address] pid = (vault.address, bump))
    (hlen : 32 ≤ vault.data.length)
    (howner : vault.data.take 32 = user.address) :
    (∀ (e : Err) (asR : Except Err Unit),
       Closure.process_close fpa (.error e) asR pid (user :: vault :: rest) d
       = (.error e,
          user :: { vault with data := List.replicate vault.data.length 0 } :: rest,
          [Closure.ClosureCall.transferCall (List.replicate vault.data.length 0)
            vault.lamports]))
    ∧ (∀ e : Err,
       Closure.process_close fpa (.ok ()) (.error e) pid (user :: vault :: rest) d
       = (.error e,
          { user with lamports := user.lamports + vault.lamports }
            :: { vault with
                 data := List.replicate vault.data.length 0, lamports := 0 }
            :: rest,
          [Closure.ClosureCall.transferCall (List.replicate vault.data.length 0)
            vault.lamports,
           Closure.ClosureCall.assignCall (List.replicate vault.data.length 0)
            systemProgramId]))
    ∧ Closure.process_close fpa (.ok ()) (.ok ()) pid (user :: vault :: rest) d
       = (.ok (),
          { user with lamports := user.lamports + vault.lamports }
            :: { vault with
                 data := List.replicate vault.data.length 0, lamports := 0,
                 owner_program := systemProgramId }
            :: rest,
          [Closure.ClosureCall.transferCall (List.replicate vault.data.length 0)
            vault.lamports,
           Closure.ClosureCall.assignCall (List.replicate vault.data.length 0)
            systemProgramId]) := by
  have hgo := closure_get_owner_eq vault.data hlen
  refine ⟨fun e asR => ?_, fun e => ?_, ?_⟩ <;>
    (simp only [Closure.process_close, hs, Bool.not_true, hfpa, hgo, howner]
     rw [if_neg (by decide), if_neg (fun hne => hne rfl), if_neg (fun hne => hne rfl)])

/-- Closed instance of `close_zeroes_before_external_calls` on the sample
vault: failing transfer, failing assign, and full success. -/
theorem close_zeroes_before_external_calls_witness :
    (Closure.process_close cfpa (.error (.custom 5)) (.ok ()) pid0
        (sampleUser :: sampleVault :: []) []
      = (.error (.custom 5),
         sampleUser :: { sampleVault with data := List.replicate sampleVault.data.length 0 } :: [],
         [Closure.ClosureCall.transferCall (List.replicate sampleVault.data.length 0)
           sampleVault.lamports]))
    ∧ (Closure.process_close cfpa (.ok ()) (.error (.custom 6)) pid0
        (sampleUser :: sampleVault :: []) []
      = (.error (.custom 6),
         { sampleUser with lamports := sampleUser.lamports + sampleVault.lamports }
           :: { sampleVault with
                lamports := 0, data := List.replicate sampleVault.data.length 0 }
           :: [],
         [Closure.ClosureCall.transferCall (List.replicate sampleVault.data.length 0)
           sampleVault.lamports,
          Closure.ClosureCall.assignCall (List.replicate sampleVault.data.length 0)
           systemProgramId]))
    ∧ Closure.process_close cfpa (.ok ()) (.ok ()) pid0
        (sampleUser :: sampleVault :: []) []
      = (.ok (),
         { sampleUser with lamports := sampleUser.lamports + sampleVault.lamports }
           :: { sampleVault with
                lamports := 0, owner_program := systemProgramId,
                data := List.replicate sampleVault.data.length 0 }
           :: [],
         [Closure.ClosureCall.transferCall (List.replicate sampleVault.data.length 0)
           sampleVault.lamports,
          Closure.ClosureCall.assignCall (List.replicate sampleVault.data.length 0)
           systemProgramId]) := by
  have h := close_zeroes_before_external_calls cfpa pid0 [] sampleUser sampleVault []
    254 rfl rfl (by decide) (by rfl)
  exact ⟨h.1 (.custom 5) (.ok ()), h.2.1 (.custom 6), h.2.2⟩

/-- C7: in `execute_swap` the callee allow-list check strictly precedes the
cross-program invocation on every path — every CPI actually invoked targets
the fixed token program id — and whenever the supplied callee differs from
the allow-listed identity, the operation fails with the InvalidProgram
error (`Custom 1`) before any external call executes. -/
theorem callee_allow_list_precedes_cpi
    (accounts : List AccountView) (amount : Nat) (cpi : Except Err Unit)
    (user tokp vt ut vault : AccountView) (rest : List AccountView)
    (amount2 : Nat) (cpi2 : Except Err Unit)
    (hs : user.is_signer = true)
    (hw1 : user.is_writable = true) (hw2 : vt.is_writable = true)
    (hw3 : ut.is_writable = true) (hw4 : vault.is_writable = true)
    (hbad : tokp.address ≠ Cpi.TOKEN_PROGRAM_ID) :
    ((Cpi.execute_swap accounts amount cpi).2 = []
      ∨ (Cpi.execute_swap accounts amount cpi).2 = [(Cpi.TOKEN_PROGRAM_ID, amount)])
    ∧ Cpi.execute_swap (user :: tokp :: vt :: ut :: vault :: rest) amount2 cpi2
        = (.error (.custom 1), []) := by
  constructor
  · unfold Cpi.execute_swap
    repeat' split
    all_goals simp_all
  · simp only [Cpi.execute_swap, hs, hw1, hw2, hw3, hw4, Bool.not_true, Bool.or_self,
      Bool.or_false, Bool.false_or]
    rw [if_neg (by decide), if_neg (by decide), if_pos hbad]

/-- Closed instance of `callee_allow_list_precedes_cpi`: a swap through the
genuine token program records only that callee; a swap naming any other
callee fails with `Custom 1` and no call. -/
theorem callee_allow_list_precedes_cpi_witness :
    ((Cpi.execute_swap
        (sampleUser :: tTokenProg :: tVaultTa 5 :: tUserTa :: tVault 0 :: []) 4 (.ok ())).2 = []
      ∨ (Cpi.execute_swap
          (sampleUser :: tTokenProg :: tVaultTa 5 :: tUserTa :: tVault 0 :: []) 4 (.ok ())).2
        = [(Cpi.TOKEN_PROGRAM_ID, 4)])
    ∧ Cpi.execute_swap
        (sampleUser :: sampleBadVault :: tVaultTa 5 :: tUserTa :: tVault 0 :: []) 4 (.ok ())
        = (.error (.custom 1), []) :=
  callee_allow_list_precedes_cpi
    (sampleUser :: tTokenProg :: tVaultTa 5 :: tUserTa :: tVault 0 :: []) 4 (.ok ())
    sampleUser sampleBadVault (tVaultTa 5) tUserTa (tVault 0) [] 4 (.ok ())
    rfl rfl rfl rfl rfl (by decide)

/-- C8: on a payload with fewer than 8 bytes after the operation tag, the
amount parse `instruction_data[0..8]` of the reentrancy example panics
(slice index out of range) instead of returning `InvalidInstructionData`:
the `map_err` on the subsequent `try_into` is unreachable, so the parse is
not total.  Shown for withdraw on the empty payload and for deposit on a
one-byte payload, on inputs passing all earlier checks. -/
theorem short_payload_panics :
    Reentrancy.process_withdraw cfpa okHandler pid0 (sampleUser :: sampleVault :: []) []
      = (.error .panicked, sampleUser :: sampleVault :: [])
    ∧ Reentrancy.process_deposit cfpa (.ok ()) pid0
        (sampleUser :: sampleVault :: sampleThird :: []) [5]
      = (.error .panicked, sampleUser :: sampleVault :: sampleThird :: []) :=
  ⟨rfl, rfl⟩

/-- C9 counterexample: tag 3 does not select the close operation — the
closure program's dispatcher rejects `[3]` with `InvalidInstructionData`
even on an account list on which `process_close` itself succeeds (close is
reached by tag 2 there), and the reentrancy program rejects tag 3 too. -/
theorem tag3_is_not_close :
    Closure.process_instruction cfpa (.ok ()) (.ok ()) (.ok ()) pid0
        (sampleUser :: sampleVault :: []) [3]
      = (.error .invalidInstructionData, sampleUser :: sampleVault :: [], [])
    ∧ (Closure.process_close cfpa (.ok ()) (.ok ()) pid0
        (sampleUser :: sampleVault :: []) []).1 = .ok ()
    ∧ Reentrancy.process_instruction cfpa okHandler (.ok ()) pid0
        (sampleUser :: sampleVault :: []) [3]
      = (.error .invalidInstructionData, sampleUser :: sampleVault :: []) :=
  ⟨rfl, rfl, rfl⟩

/-- C9 amended: in both pinocchio dispatchers the first payload byte
selects tag 0 = initialize and tag 1 = deposit; tag 2 selects the
program's third operation — withdraw in the reentrancy program and close
in the closure program; every tag of 3 or more, and the empty payload,
fail with `InvalidInstructionData`. -/
theorem dispatch_tags
    (fpa : Fpa) (h : Bytes → Except Err Unit × Bytes) (tr trC asR : Except Err Unit)
    (pid : Bytes) (accounts : List AccountView) (rest : Bytes) (t : Nat) :
    Reentrancy.process_instruction fpa h tr pid accounts (0 :: rest)
      = Reentrancy.process_initialize fpa pid accounts rest
    ∧ Reentrancy.process_instruction fpa h tr pid accounts (1 :: rest)
      = Reentrancy.process_deposit fpa tr pid accounts rest
    ∧ Reentrancy.process_instruction fpa h tr pid accounts (2 :: rest)
      = Reentrancy.process_withdraw fpa h pid accounts rest
    ∧ Reentrancy.process_instruction fpa h tr pid accounts ((t + 3) :: rest)
      = (.error .invalidInstructionData, accounts)
    ∧ Reentrancy.process_instruction fpa h tr pid accounts []
      = (.error .invalidInstructionData, accounts)
    ∧ Closure.process_instruction fpa tr trC asR pid accounts (0 :: rest)
      = Closure.process_initialize fpa pid accounts rest
    ∧ Closure.process_instruction fpa tr trC asR pid accounts (1 :: rest)
      = Closure.process_deposit fpa tr pid accounts rest
    ∧ Closure.process_instruction fpa tr trC asR pid accounts (2 :: rest)
      = Closure.process_close fpa trC asR pid accounts rest
    ∧ Closure.process_instruction fpa tr trC asR pid accounts ((t + 3) :: rest)
      = (.error .invalidInstructionData, accounts, [])
    ∧ Closure.process_instruction fpa tr trC asR pid accounts []
      = (.error .invalidInstructionData, accounts, []) := by
  refine ⟨rfl, rfl, rfl, ?_, rfl, rfl, rfl, rfl, ?_, rfl⟩
  · simp only [Reentrancy.process_instruction]
    rw [if_neg (by omega), if_neg (by omega), if_neg (by omega)]
  · simp only [Closure.process_instruction]
    rw [if_neg (by omega), if_neg (by omega), if_neg (by omega)]

end SolVault
